import Mathlib

/-!
Verification of the svelte-adapter-bun serving core.

Shallow embedding of two components of the repository:
* the static-asset responder built by `sirv` in `src/files/handler.js`
  (conditional requests, precompressed-content negotiation, byte ranges);
* the dev-mode WebSocket shim and topic registry in
  `src/dev/websocket-shim.js`, together with the upgrade bridge of the
  dev server plugin.

Headers are modelled as association lists with lowercased keys, mirroring
the WHATWG `Headers` class used by the code.  File bytes are modelled as
`List Nat`; the responder itself returns a body *descriptor* (which path
is served and which slice of it), exactly as the JS code hands `Bun.file`
descriptors to `Response`.
-/

namespace AdapterBun

/-- Association-list lookup, mirroring `Map.get` (first matching key). -/
def alistLookup {α β : Type} [DecidableEq α] : List (α × β) → α → Option β
  | [], _ => none
  | (k', v) :: t, k => if k' = k then some v else alistLookup t k

/-- ASCII lowercasing of one character, as header-name normalisation does. -/
def lowerChar (c : Char) : Char :=
  if 65 ≤ c.toNat ∧ c.toNat ≤ 90 then Char.ofNat (c.toNat + 32) else c

/-- ASCII lowercasing of a header name. -/
def lowerString (s : String) : String :=
  ⟨s.data.map lowerChar⟩

/-- Header list: lowercased name/value pairs, as stored by `Headers`. -/
abbrev Hdrs := List (String × String)

/-- Replace the value of the first entry with key `k`, or append `(k, v)`. -/
def hSetK : Hdrs → String → String → Hdrs
  | [], k, v => [(k, v)]
  | (k', v') :: t, k, v =>
    if k' = k then (k, v) :: t else (k', v') :: hSetK t k v

/-- `Headers.set`: the name is normalised to lowercase. -/
def hSet (h : Hdrs) (name value : String) : Hdrs :=
  hSetK h (lowerString name) value

/-- Lookup by already-lowercased key. -/
def hGetK : Hdrs → String → Option String
  | [], _ => none
  | (k', v) :: t, k => if k' = k then some v else hGetK t k

/-- `Headers.get`: the name is normalised to lowercase. -/
def hGet (h : Hdrs) (name : String) : Option String :=
  hGetK h (lowerString name)

/-- Drop every entry with the given (already lowercased) key. -/
def hDelK : Hdrs → String → Hdrs
  | [], _ => []
  | (k', v') :: t, k =>
    if k' = k then hDelK t k else (k', v') :: hDelK t k

/-- `Headers.delete`: drop every entry whose key is the lowercased name. -/
def hDelete (h : Hdrs) (name : String) : Hdrs :=
  hDelK h (lowerString name)

/-- One entry of the directory index (`files` map in `sirv`). -/
structure FileEntry where
  abs : String
  size : Nat
  mtime : Nat
  etag : Option String
  type : String
  has_br : Bool
  has_gz : Bool
deriving DecidableEq

/-- Body descriptor: `Bun.file(path)` or `Bun.file(path).slice(start, stop)`
(`stop` exclusive, as in the JS `slice` call). -/
inductive BodySource where
  | whole (path : String)
  | sliced (path : String) (start stop : Nat)
deriving DecidableEq

/-- Response descriptor: status, headers, optional body. -/
structure Resp where
  status : Nat
  headers : Hdrs
  body : Option BodySource
deriving DecidableEq

/-- A request as the handler sees it: the URL pathname plus headers. -/
structure Request where
  pathname : String
  headers : Hdrs
deriving DecidableEq

/-- Set a header on a request (stored lowercased, as `Headers` does). -/
def Request.withHeader (r : Request) (name value : String) : Request :=
  { r with headers := hSet r.headers name value }

/-- Substring test on character lists, mirroring `String.prototype.includes`. -/
def listContainsSub (needle : List Char) : List Char → Bool
  | [] => needle.isEmpty
  | c :: t => needle.isPrefixOf (c :: t) || listContainsSub needle t

/-- `s.includes(pat)` of JavaScript. -/
def strContains (s pat : String) : Bool :=
  listContainsSub pat.toList s.toList

/-- Try to match the regex `bytes=(\d+)-(\d*)` at the head of the list:
literal `bytes=`, a nonempty maximal digit run, `-`, a maximal digit run. -/
def matchRangeAt (s : List Char) : Option (List Char × List Char) :=
  if ("bytes=".toList).isPrefixOf s then
    let rest := s.drop 6
    let d1 := rest.takeWhile Char.isDigit
    let rest1 := rest.dropWhile Char.isDigit
    if d1.isEmpty then none
    else
      match rest1 with
      | '-' :: rest2 => some (d1, rest2.takeWhile Char.isDigit)
      | _ => none
  else none

/-- Leftmost match of `/bytes=(\d+)-(\d*)/`, returning the two captures,
as `range_header.match(...)` does. -/
def findRangeMatch : List Char → Option (List Char × List Char)
  | [] => matchRangeAt []
  | c :: t =>
    match matchRangeAt (c :: t) with
    | some r => some r
    | none => findRangeMatch t

/-- `parseInt(digits, 10)` on a digit string. -/
def digitsToNat (l : List Char) : Nat :=
  l.foldl (fun a c => 10 * a + (c.toNat - 48)) 0

/-- Base-path stripping at the top of `handle`:
`if (base_path && pathname.startsWith(base_path)) pathname = pathname.slice(base_path.length) || '/'`. -/
def stripBase (base_path pathname : String) : String :=
  if !base_path.isEmpty && pathname.startsWith base_path then
    let s := pathname.drop base_path.length
    if s = "" then "/" else s
  else pathname

/-- Base headers of `handle`: Content-Type, Content-Length, Last-Modified.
`toUTC` stands for `new Date(mtime).toUTCString()`. -/
def baseHeaders (toUTC : Nat → String) (file : FileEntry) : Hdrs :=
  hSet (hSet (hSet [] "Content-Type" file.type)
      "Content-Length" (toString file.size))
    "Last-Modified" (toUTC file.mtime)

/-- Add the ETag header when the entry carries a validator. -/
def withEtag (file : FileEntry) (h : Hdrs) : Hdrs :=
  match file.etag with
  | some e => hSet h "ETag" e
  | none => h

/-- The optional `opts.setHeaders(headers, pathname)` callback. -/
def applySetHeaders (o : Option (Hdrs → String → Hdrs)) (h : Hdrs)
    (pathname : String) : Hdrs :=
  match o with
  | some f => f h pathname
  | none => h

/-- The `If-None-Match` comparison guarded by `if (file.etag)`. -/
def etagMatches (file : FileEntry) (inm : Option String) : Bool :=
  match file.etag with
  | some e => inm == some e
  | none => false

/-- Encoding negotiation block of `handle`: returns the path to serve,
the selected `content_encoding`, and the updated headers. -/
def negotiate (file : FileEntry) (accept_encoding : String) (h : Hdrs) :
    String × Option String × Hdrs :=
  if file.has_br && strContains accept_encoding "br" then
    (file.abs ++ ".br", some "br",
      hDelete (hSet (hSet h "Content-Encoding" "br") "Vary" "Accept-Encoding")
        "Content-Length")
  else if file.has_gz && strContains accept_encoding "gzip" then
    (file.abs ++ ".gz", some "gzip",
      hDelete (hSet (hSet h "Content-Encoding" "gzip") "Vary" "Accept-Encoding")
        "Content-Length")
  else if file.has_br || file.has_gz then
    (file.abs, none, hSet h "Vary" "Accept-Encoding")
  else (file.abs, none, h)

/-- The 416 or 206 response built once the range regex has matched, with
captures `d1`, `d2`.  Arithmetic is over `Int`, as JS numbers can go
negative here (`file.size - 1` when the file is empty). -/
def rangeResp (file : FileEntry) (serve_path : String) (h : Hdrs)
    (d1 d2 : List Char) : Resp :=
  let start : Int := (digitsToNat d1 : Nat)
  let endv : Int :=
    if d2.isEmpty then (file.size : Int) - 1 else (digitsToNat d2 : Nat)
  if start ≥ (file.size : Int) ∨ endv ≥ (file.size : Int) ∨ start > endv then
    { status := 416
      headers := hSet [] "Content-Range" ("bytes */" ++ toString file.size)
      body := none }
  else
    { status := 206
      headers :=
        hSet (hSet h "Content-Range"
            ("bytes " ++ toString start ++ "-" ++ toString endv ++ "/" ++
              toString file.size))
          "Content-Length" (toString (endv - start + 1))
      body := some (.sliced serve_path start.toNat (endv + 1).toNat) }

/-- Range block of `handle`: evaluated only when the header is a nonempty
string and no content encoding was selected. -/
def rangePhase (file : FileEntry) (serve_path : String)
    (content_encoding : Option String) (range_header : String)
    (h : Hdrs) : Resp :=
  if !range_header.isEmpty && content_encoding.isNone then
    match findRangeMatch range_header.toList with
    | some (d1, d2) => rangeResp file serve_path h d1 d2
    | none => { status := 200, headers := h, body := some (.whole serve_path) }
  else { status := 200, headers := h, body := some (.whole serve_path) }

/-- The headers accumulated before the conditional check: base headers,
ETag, then the custom `setHeaders` callback. -/
def respHeadersBase (setHdrs : Option (Hdrs → String → Hdrs))
    (toUTC : Nat → String) (pathname : String) (file : FileEntry) : Hdrs :=
  applySetHeaders setHdrs (withEtag file (baseHeaders toUTC file)) pathname

/-- Everything `handle` does once the index lookup has succeeded. -/
def handleFile (setHdrs : Option (Hdrs → String → Hdrs)) (toUTC : Nat → String)
    (req : Request) (pathname : String) (file : FileEntry) : Resp :=
  let headers := respHeadersBase setHdrs toUTC pathname file
  if etagMatches file (hGet req.headers "if-none-match") then
    { status := 304, headers := headers, body := none }
  else
    let ae := (hGet req.headers "accept-encoding").getD ""
    match negotiate file ae headers with
    | (serve_path, content_encoding, headers') =>
      rangePhase file serve_path content_encoding
        ((hGet req.headers "range").getD "") headers'

/-- The request handler returned by `sirv`: `none` is the null
(fall-through) result for paths not in the index. -/
def handle (files : List (String × FileEntry)) (base_path : String)
    (setHdrs : Option (Hdrs → String → Hdrs)) (toUTC : Nat → String)
    (req : Request) : Option Resp :=
  let pathname := stripBase base_path req.pathname
  (alistLookup files pathname).map (handleFile setHdrs toUTC req pathname)

/-- Bytes a body descriptor denotes, over a filesystem `fs` mapping a path
to its byte content.  `Bun.file(p).slice(a, b)` is bytes `[a, b)`. -/
def bodyBytes (fs : String → List Nat) : BodySource → List Nat
  | .whole p => fs p
  | .sliced p a b => ((fs p).drop a).take (b - a)

/-- The inclusive byte slice `[s, e]` of a byte list, written the way the
specification describes it: the bytes at offsets `s, s+1, ..., e`. -/
def byteSliceSpec (l : List Nat) (s e : Nat) : List Nat :=
  (List.range (e + 1 - s)).map (fun k => l.getD (s + k) 0)

/-!
WebSocket shim and topic registry (`src/dev/websocket-shim.js`).

Connection handles are identified by naturals.  A `World` holds the
process-wide `topicRegistry` (topic name to ordered subscriber set, as a
JS `Map` of insertion-ordered `Set`s), the `readyState` of every
underlying `ws` socket, and a log of frames handed to `ws.send`, in
order.  Payloads are strings; `send` returns `data.length` for a string.
-/

/-- State shared by every `BunWebSocketShim` instance. -/
structure World where
  registry : List (String × List Nat)
  handles : List (Nat × Nat)
  sent : List (Nat × String)
deriving DecidableEq

/-- `readyState` of socket `i` (3 = CLOSED if the socket is unknown). -/
def rsOf (hs : List (Nat × Nat)) (i : Nat) : Nat :=
  (alistLookup hs i).getD 3

/-- `this.#ws.readyState` as seen by handle `i`. -/
def readyState (w : World) (i : Nat) : Nat :=
  rsOf w.handles i

/-- `Set.add`: append unless already a member. -/
def setAdd (l : List Nat) (i : Nat) : List Nat :=
  if l.contains i then l else l ++ [i]

/-- Replace the value of the first entry with key `k` (mutating the set a
`Map.get` returned). -/
def alistReplaceFirst {β : Type} : List (String × β) → String → β → List (String × β)
  | [], _, _ => []
  | (k', v') :: t, k, v =>
    if k' = k then (k', v) :: t else (k', v') :: alistReplaceFirst t k v

/-- `Map.delete`: drop the first entry with key `k`. -/
def alistEraseFirst {β : Type} : List (String × β) → String → List (String × β)
  | [], _ => []
  | (k', v') :: t, k => if k' = k then t else (k', v') :: alistEraseFirst t k

/-- `subscribe(topic)` of handle `i`. -/
def subscribe (w : World) (i : Nat) (t : String) : World :=
  match alistLookup w.registry t with
  | none => { w with registry := w.registry ++ [(t, setAdd [] i)] }
  | some subs => { w with registry := alistReplaceFirst w.registry t (setAdd subs i) }

/-- `unsubscribe(topic)` of handle `i`: delete the member, then delete the
entry if the set became empty. -/
def unsubscribe (w : World) (i : Nat) (t : String) : World :=
  match alistLookup w.registry t with
  | none => w
  | some subs =>
    let subs' := subs.filter (fun j => j != i)
    if subs'.isEmpty then { w with registry := alistEraseFirst w.registry t }
    else { w with registry := alistReplaceFirst w.registry t subs' }

/-- `isSubscribed(topic)`: `topicRegistry.get(topic)?.has(this) ?? false`. -/
def isSubscribed (w : World) (i : Nat) (t : String) : Bool :=
  match alistLookup w.registry t with
  | none => false
  | some subs => subs.contains i

/-- `#cleanup()` over the registry: for every topic delete the member and
drop the entry when the set became empty. -/
def cleanupReg (reg : List (String × List Nat)) (i : Nat) : List (String × List Nat) :=
  match reg with
  | [] => []
  | (t, subs) :: rest =>
    let subs' := subs.filter (fun j => j != i)
    if subs'.isEmpty then cleanupReg rest i
    else (t, subs') :: cleanupReg rest i

/-- Record that socket `i` now has `readyState` `s`. -/
def setReadyState (hs : List (Nat × Nat)) (i s : Nat) : List (Nat × Nat) :=
  match hs with
  | [] => [(i, s)]
  | (j, v) :: t => if j = i then (j, s) :: t else (j, v) :: setReadyState t i s

/-- The close event of socket `i`: the transport reaches CLOSED and the
`close` listener installed by the constructor runs `#cleanup()`. -/
def closeHandle (w : World) (i : Nat) : World :=
  { registry := cleanupReg w.registry i
    handles := setReadyState w.handles i 3
    sent := w.sent }

/-- `send(data)` of handle `i`: 0 and no frame unless the state is OPEN,
else the frame is written and the string length returned. -/
def wsSend (w : World) (i : Nat) (data : String) : World × Nat :=
  if readyState w i ≠ 1 then (w, 0)
  else ({ w with sent := w.sent ++ [(i, data)] }, data.length)

/-- The `for (const shim of subs)` loop of `publish`: skip the publisher,
skip non-OPEN subscribers, accumulate the `send` return values. -/
def pubLoop (w : World) (selfId : Nat) (data : String) : List Nat → World × Nat
  | [] => (w, 0)
  | j :: rest =>
    if j = selfId then pubLoop w selfId data rest
    else if readyState w j ≠ 1 then pubLoop w selfId data rest
    else
      let r := wsSend w j data
      let r2 := pubLoop r.1 selfId data rest
      (r2.1, r.2 + r2.2)

/-- `publish(topic, data)` of handle `selfId`. -/
def publish (w : World) (selfId : Nat) (topic : String) (data : String) :
    World × Nat :=
  match alistLookup w.registry topic with
  | none => (w, 0)
  | some subs => pubLoop w selfId data subs

/-- The handles a given publish call delivered to: the sockets of the
frames it appended to the send log, in order. -/
def publishRecipients (w : World) (selfId : Nat) (topic : String)
    (data : String) : List Nat :=
  (((publish w selfId topic data).1.sent).drop w.sent.length).map Prod.fst

/-- One registry-mutating event of the shim system. -/
inductive WsOp where
  | sub (i : Nat) (t : String)
  | unsub (i : Nat) (t : String)
  | closeConn (i : Nat)
deriving DecidableEq

/-- Apply one event. -/
def applyOp (w : World) : WsOp → World
  | .sub i t => subscribe w i t
  | .unsub i t => unsubscribe w i t
  | .closeConn i => closeHandle w i

/-- Run a sequence of events. -/
def runOps (w : World) (ops : List WsOp) : World :=
  ops.foldl applyOp w

/-- A fresh process: empty registry, no frames sent, sockets `hs`. -/
def initWorld (hs : List (Nat × Nat)) : World :=
  { registry := [], handles := hs, sent := [] }

/-- Registry invariant: no entry holds an empty subscriber set. -/
def noEmptyTopics (w : World) : Prop :=
  ∀ p ∈ w.registry, p.2 ≠ []

/-!
Upgrade bridge (`setupDevWebSocket` / `handleUpgrade` in the dev plugin).

A user `upgrade` callback is observed by the bridge only through: whether
it threw, whether it called the facade's `upgrade(request, {data})`, the
`data` it passed there, and whether the value it returned is a `Response`
instance.  That interface is the callback model below.
-/

/-- What the user's `upgrade` callback returned. -/
inductive UpgradeRet where
  | response
  | otherValue
  | undef
deriving DecidableEq

/-- Observable behaviour of a user `upgrade` callback. -/
structure UpgradeCb where
  callsUpgrade : Bool
  data : String
  ret : UpgradeRet
  throws : Bool
deriving DecidableEq

/-- A user websocket module, as the bridge resolves it. -/
structure WsModule where
  upgrade : Option UpgradeCb
deriving DecidableEq

/-- Outcome of one `handleUpgrade` invocation. -/
inductive UpgradeOutcome where
  | skippedHmr
  | accepted (data : String)
  | rejectedDestroyed
  | rejectedHung
  | errorDestroyed
deriving DecidableEq

/-- `handleUpgrade(req, socket, head)` for a request whose
`sec-websocket-protocol` header is `secProto`. -/
def handleUpgrade (secProto : Option String) (m : WsModule) : UpgradeOutcome :=
  if secProto == some "vite-hmr" then .skippedHmr
  else
    match m.upgrade with
    | none => .accepted ""
    | some cb =>
      if cb.throws then .errorDestroyed
      else if cb.callsUpgrade then .accepted cb.data
      else if cb.ret == .response then .rejectedDestroyed
      else .rejectedHung

/-- Was the raw transport socket destroyed? -/
def socketDestroyed : UpgradeOutcome → Bool
  | .rejectedDestroyed => true
  | .errorDestroyed => true
  | _ => false

/-- Was the protocol handshake completed (so `setupHandlers` wires the
shim and the user's `open` callback fires)? -/
def openFires : UpgradeOutcome → Bool
  | .accepted _ => true
  | _ => false

/-!  Concrete test fixtures used to instantiate the theorems below. -/

/-- A 13-byte indexed file (`data.txt` = `"Hello, World!"`). -/
def cFile : FileEntry :=
  { abs := "data.txt", size := 13, mtime := 5, etag := some "W/13-5"
    type := "text/plain", has_br := false, has_gz := false }

/-- The same file, with both precompressed siblings on disk. -/
def cFileBoth : FileEntry := { cFile with has_br := true, has_gz := true }

/-- The same file, with only a gzip sibling on disk. -/
def cFileGz : FileEntry := { cFile with has_gz := true }

/-- A stand-in for `Date.prototype.toUTCString`. -/
def cUTC : Nat → String := fun _ => "date"

/-- The bytes of `"Hello, World!"`. -/
def cBytes : List Nat :=
  [72, 101, 108, 108, 111, 44, 32, 87, 111, 114, 108, 100, 33]

/-- A filesystem holding just that file. -/
def cFs : String → List Nat := fun p => if p = "data.txt" then cBytes else []

/-- A world with two open sockets both subscribed to `room`. -/
def cW : World :=
  { registry := [("room", [0, 1])], handles := [(0, 1), (1, 1)], sent := [] }

/-- A world with three open sockets, two subscribed topics. -/
def cW3 : World :=
  { registry := [("room", [0, 1, 2]), ("log", [1])]
    handles := [(0, 1), (1, 1), (2, 1)], sent := [] }

/-- An `upgrade` callback that rejects by returning a plain value
(not a `Response`) without calling the facade. -/
def cCbOther : UpgradeCb :=
  { callsUpgrade := false, data := "", ret := .otherValue, throws := false }

/-- A user module exposing only that callback. -/
def cModOther : WsModule := { upgrade := some cCbOther }

/-!  Helper lemmas: headers. -/

theorem hGetK_hSetK (h : Hdrs) (k v m : String) :
    hGetK (hSetK h k v) m = if m = k then some v else hGetK h m := by
  induction h with
  | nil => by_cases hmk : m = k <;> simp [hSetK, hGetK, hmk, Ne.symm]
  | cons hd t ih =>
    obtain ⟨k', v'⟩ := hd
    by_cases hk : k' = k
    · subst hk
      by_cases hmk : m = k' <;> simp [hSetK, hGetK, hmk, Ne.symm]
    · by_cases hmk : m = k'
      · subst hmk
        simp [hSetK, hGetK, hk]
      · simp [hSetK, hGetK, hk, Ne.symm hmk, ih]

theorem hGet_hSet (h : Hdrs) (n v m : String) :
    hGet (hSet h n v) m =
      if lowerString m = lowerString n then some v else hGet h m := by
  simp [hGet, hSet, hGetK_hSetK]

theorem hGetK_hDelK (h : Hdrs) (k m : String) :
    hGetK (hDelK h k) m = if m = k then none else hGetK h m := by
  induction h with
  | nil => simp [hDelK, hGetK]
  | cons hd t ih =>
    obtain ⟨k', v'⟩ := hd
    by_cases hk : k' = k
    · subst hk
      rw [show hDelK ((k', v') :: t) k' = hDelK t k' from by simp [hDelK], ih]
      by_cases hmk : m = k'
      · simp [hGetK, hmk]
      · simp [hGetK, hmk, Ne.symm hmk]
    · by_cases hmk : m = k'
      · subst hmk
        simp [hDelK, hGetK, hk]
      · simp [hDelK, hGetK, hk, Ne.symm hmk, ih]

theorem hGet_hDelete (h : Hdrs) (n m : String) :
    hGet (hDelete h n) m =
      if lowerString m = lowerString n then none else hGet h m := by
  simp [hGet, hDelete, hGetK_hDelK]

/-!  Helper lemmas: numbers and slices. -/

theorem intNatToString (n : Nat) : toString ((n : Int)) = toString n := rfl

theorem drop_take_eq_byteSliceSpec (l : List Nat) (s e : Nat)
    (hse : s ≤ e) (hel : e < l.length) :
    (l.drop s).take (e + 1 - s) = byteSliceSpec l s e := by
  apply List.ext_getElem?
  intro k
  by_cases hk : k < e + 1 - s
  · have hsk : s + k < l.length := by omega
    rw [List.getElem?_take, if_pos hk, List.getElem?_drop]
    rw [byteSliceSpec, List.getElem?_map, List.getElem?_range hk]
    simp [List.getD_eq_getElem?_getD, List.getElem?_eq_getElem hsk]
  · have h1 : ((l.drop s).take (e + 1 - s)).length ≤ k := by
      simp [List.length_take, List.length_drop]; omega
    have h2 : (byteSliceSpec l s e).length ≤ k := by
      simp [byteSliceSpec]; omega
    rw [List.getElem?_eq_none h1, List.getElem?_eq_none h2]

/-!  Helper lemmas: unfolding the responder phase by phase. -/

theorem handle_found (files : List (String × FileEntry)) (bp : String)
    (sh : Option (Hdrs → String → Hdrs)) (toUTC : Nat → String)
    (req : Request) (file : FileEntry)
    (hlk : alistLookup files (stripBase bp req.pathname) = some file) :
    handle files bp sh toUTC req =
      some (handleFile sh toUTC req (stripBase bp req.pathname) file) := by
  simp [handle, hlk]

theorem handleFile_304 (sh : Option (Hdrs → String → Hdrs))
    (toUTC : Nat → String) (req : Request) (p : String) (file : FileEntry)
    (hm : etagMatches file (hGet req.headers "if-none-match") = true) :
    handleFile sh toUTC req p file =
      { status := 304, headers := respHeadersBase sh toUTC p file
        body := none } := by
  simp [handleFile, hm]

theorem handleFile_no304 (sh : Option (Hdrs → String → Hdrs))
    (toUTC : Nat → String) (req : Request) (p : String) (file : FileEntry)
    (hm : etagMatches file (hGet req.headers "if-none-match") = false) :
    handleFile sh toUTC req p file =
      rangePhase file
        (negotiate file ((hGet req.headers "accept-encoding").getD "")
          (respHeadersBase sh toUTC p file)).1
        (negotiate file ((hGet req.headers "accept-encoding").getD "")
          (respHeadersBase sh toUTC p file)).2.1
        ((hGet req.headers "range").getD "")
        (negotiate file ((hGet req.headers "accept-encoding").getD "")
          (respHeadersBase sh toUTC p file)).2.2 := by
  simp [handleFile, hm]

theorem negotiate_br (file : FileEntry) (ae : String) (h : Hdrs)
    (hbr : (file.has_br && strContains ae "br") = true) :
    negotiate file ae h =
      (file.abs ++ ".br", some "br",
        hDelete (hSet (hSet h "Content-Encoding" "br") "Vary" "Accept-Encoding")
          "Content-Length") := by
  simp [negotiate, hbr]

theorem negotiate_gz (file : FileEntry) (ae : String) (h : Hdrs)
    (hbr : (file.has_br && strContains ae "br") = false)
    (hgz : (file.has_gz && strContains ae "gzip") = true) :
    negotiate file ae h =
      (file.abs ++ ".gz", some "gzip",
        hDelete (hSet (hSet h "Content-Encoding" "gzip") "Vary" "Accept-Encoding")
          "Content-Length") := by
  simp [negotiate, hbr, hgz]

theorem negotiate_none_selected (file : FileEntry) (ae : String) (h : Hdrs)
    (hbr : (file.has_br && strContains ae "br") = false)
    (hgz : (file.has_gz && strContains ae "gzip") = false) :
    negotiate file ae h =
      (file.abs, none,
        if file.has_br || file.has_gz then hSet h "Vary" "Accept-Encoding"
        else h) := by
  simp only [negotiate, hbr, hgz, Bool.false_eq_true, if_false]
  split <;> simp

theorem rangeResp_valid (file : FileEntry) (sp : String) (h : Hdrs)
    (d1 d2 : List Char) (s e : Nat)
    (hs : digitsToNat d1 = s)
    (he : (if d2.isEmpty then file.size - 1 else digitsToNat d2) = e)
    (hse : s ≤ e) (hesz : e < file.size) :
    rangeResp file sp h d1 d2 =
      { status := 206
        headers :=
          hSet (hSet h "Content-Range"
              ("bytes " ++ toString s ++ "-" ++ toString e ++ "/" ++
                toString file.size))
            "Content-Length" (toString (e - s + 1))
        body := some (.sliced sp s (e + 1)) } := by
  have hstart : ((digitsToNat d1 : Nat) : Int) = (s : Int) := by
    exact_mod_cast hs
  have hend :
      (if d2.isEmpty then (file.size : Int) - 1
        else ((digitsToNat d2 : Nat) : Int)) = (e : Int) := by
    by_cases hd : d2.isEmpty <;> simp [hd] at he ⊢ <;> omega
  simp only [rangeResp, hstart, hend]
  rw [if_neg (by omega)]
  have hlen : ((e : Int) - (s : Int) + 1) = ((e - s + 1 : Nat) : Int) := by
    omega
  have htn1 : ((s : Int)).toNat = s := rfl
  have htn2 : ((e : Int) + 1).toNat = e + 1 := by omega
  rw [hlen, intNatToString, intNatToString, intNatToString, htn1, htn2]

theorem rangeResp_invalid (file : FileEntry) (sp : String) (h : Hdrs)
    (d1 d2 : List Char) (s e : Nat)
    (hs : digitsToNat d1 = s)
    (he : (if d2.isEmpty then file.size - 1 else digitsToNat d2) = e)
    (hbad : s ≥ file.size ∨ e ≥ file.size ∨ s > e) :
    rangeResp file sp h d1 d2 =
      { status := 416
        headers := hSet [] "Content-Range" ("bytes */" ++ toString file.size)
        body := none } := by
  simp only [rangeResp]
  rw [if_pos]
  subst hs
  by_cases hd : d2.isEmpty <;> simp [hd] at he ⊢ <;> omega

theorem rangePhase_match (file : FileEntry) (sp : String) (rh : String)
    (h : Hdrs) (d1 d2 : List Char)
    (hne : rh ≠ "")
    (hm : findRangeMatch rh.toList = some (d1, d2)) :
    rangePhase file sp none rh h = rangeResp file sp h d1 d2 := by
  have hre : rh.isEmpty = false := by
    cases hrh : rh.isEmpty
    · rfl
    · exact absurd ((String.isEmpty_iff rh).mp hrh) hne
  have hm' : findRangeMatch rh.data = some (d1, d2) := hm
  simp [rangePhase, hre, hm']

theorem rangePhase_nomatch (file : FileEntry) (sp : String) (rh : String)
    (h : Hdrs)
    (hm : findRangeMatch rh.toList = none) :
    rangePhase file sp none rh h =
      { status := 200, headers := h, body := some (.whole sp) } := by
  have hm' : findRangeMatch rh.data = none := hm
  by_cases hrh : rh.isEmpty <;> simp [rangePhase, hrh, hm']

theorem rangePhase_encoded (file : FileEntry) (sp : String) (ce : String)
    (rh : String) (h : Hdrs) :
    rangePhase file sp (some ce) rh h =
      { status := 200, headers := h, body := some (.whole sp) } := by
  simp [rangePhase]

theorem rangePhase_norange (file : FileEntry) (sp : String)
    (ce : Option String) (h : Hdrs) :
    rangePhase file sp ce "" h =
      { status := 200, headers := h, body := some (.whole sp) } := by
  have he : ("" : String).isEmpty = true := rfl
  simp [rangePhase, he]

/-!  Helper lemmas: publish fan-out. -/

/-- The subscribers a publish by `selfId` actually sends to: the other
members whose socket is OPEN. -/
def openOthers (w : World) (selfId : Nat) (subs : List Nat) : List Nat :=
  subs.filter (fun j => decide (j ≠ selfId) && decide (readyState w j = 1))

theorem pubLoop_spec (selfId : Nat) (data : String) :
    ∀ (subs : List Nat) (w : World),
      (pubLoop w selfId data subs).1.registry = w.registry ∧
      (pubLoop w selfId data subs).1.handles = w.handles ∧
      (pubLoop w selfId data subs).1.sent =
        w.sent ++ (openOthers w selfId subs).map (fun j => (j, data)) ∧
      (pubLoop w selfId data subs).2 =
        (openOthers w selfId subs).length * data.length := by
  intro subs
  induction subs with
  | nil => intro w; simp [pubLoop, openOthers]
  | cons j rest ih =>
    intro w
    by_cases hj : j = selfId
    · have : openOthers w selfId (j :: rest) = openOthers w selfId rest := by
        simp [openOthers, List.filter_cons, hj]
      rw [this]
      simpa [pubLoop, hj] using ih w
    · by_cases hrs : readyState w j = 1
      · have hoo : openOthers w selfId (j :: rest) =
            j :: openOthers w selfId rest := by
          simp [openOthers, List.filter_cons, hj, hrs]
        have hsend : wsSend w j data =
            ({ w with sent := w.sent ++ [(j, data)] }, data.length) := by
          simp [wsSend, hrs]
        have hstep : pubLoop w selfId data (j :: rest) =
            ((pubLoop { w with sent := w.sent ++ [(j, data)] } selfId data rest).1,
              data.length +
                (pubLoop { w with sent := w.sent ++ [(j, data)] } selfId data rest).2) := by
          simp [pubLoop, hj, hrs, hsend]
        obtain ⟨ihr, ihh, ihs, ihn⟩ := ih { w with sent := w.sent ++ [(j, data)] }
        have hoo' : openOthers { w with sent := w.sent ++ [(j, data)] } selfId rest =
            openOthers w selfId rest := rfl
        rw [hoo'] at ihs ihn
        refine ⟨by rw [hstep]; exact ihr, by rw [hstep]; exact ihh, ?_, ?_⟩
        · rw [hstep, hoo]
          simp only [ihs]
          simp
        · rw [hstep, hoo, ihn]
          simp [Nat.succ_mul, Nat.add_comm]
      · have : openOthers w selfId (j :: rest) = openOthers w selfId rest := by
          simp [openOthers, List.filter_cons, hj, hrs]
        rw [this]
        simpa [pubLoop, hj, hrs] using ih w

theorem publish_unknown_topic (w : World) (selfId : Nat) (topic data : String)
    (h : alistLookup w.registry topic = none) :
    publish w selfId topic data = (w, 0) := by
  simp [publish, h]

theorem publish_known_topic (w : World) (selfId : Nat) (topic data : String)
    (subs : List Nat)
    (h : alistLookup w.registry topic = some subs) :
    (publish w selfId topic data).1.registry = w.registry ∧
    (publish w selfId topic data).1.handles = w.handles ∧
    (publish w selfId topic data).1.sent =
      w.sent ++ (openOthers w selfId subs).map (fun j => (j, data)) ∧
    (publish w selfId topic data).2 =
      (openOthers w selfId subs).length * data.length := by
  simpa [publish, h] using pubLoop_spec selfId data subs w

theorem publishRecipients_unknown (w : World) (selfId : Nat)
    (topic data : String)
    (h : alistLookup w.registry topic = none) :
    publishRecipients w selfId topic data = [] := by
  simp [publishRecipients, publish_unknown_topic w selfId topic data h]

theorem publishRecipients_known (w : World) (selfId : Nat)
    (topic data : String) (subs : List Nat)
    (h : alistLookup w.registry topic = some subs) :
    publishRecipients w selfId topic data = openOthers w selfId subs := by
  obtain ⟨_, _, hs, _⟩ := publish_known_topic w selfId topic data subs h
  unfold publishRecipients
  rw [hs, List.drop_left, List.map_map]
  show List.map id _ = _
  exact List.map_id _

/-!  Helper lemmas: registry cleanup and the delete-on-empty invariant. -/

theorem cleanupReg_lookup (i : Nat) (t : String) :
    ∀ (reg : List (String × List Nat)) (subs : List Nat),
      alistLookup (cleanupReg reg i) t = some subs →
      subs.contains i = false ∧ subs ≠ [] := by
  intro reg
  induction reg with
  | nil => intro subs h; simp [cleanupReg, alistLookup] at h
  | cons hd rest ih =>
    intro subs h
    obtain ⟨t', s'⟩ := hd
    by_cases hemp : (s'.filter (fun j => j != i)).isEmpty
    · rw [show cleanupReg ((t', s') :: rest) i = cleanupReg rest i from by
        simp [cleanupReg, hemp]] at h
      exact ih subs h
    · rw [show cleanupReg ((t', s') :: rest) i =
          (t', s'.filter (fun j => j != i)) :: cleanupReg rest i from by
        simp [cleanupReg, hemp]] at h
      rw [alistLookup] at h
      by_cases ht : t' = t
      · rw [if_pos ht] at h
        obtain rfl : s'.filter (fun j => j != i) = subs := by
          injection h
        constructor
        · simp
        · intro hnil
          rw [hnil] at hemp
          exact hemp rfl
      · rw [if_neg ht] at h
        exact ih subs h

theorem cleanupReg_noEmpty (i : Nat) :
    ∀ (reg : List (String × List Nat)), ∀ p ∈ cleanupReg reg i, p.2 ≠ [] := by
  intro reg
  induction reg with
  | nil => intro p hp; simp [cleanupReg] at hp
  | cons hd rest ih =>
    intro p hp
    obtain ⟨t', s'⟩ := hd
    by_cases hemp : (s'.filter (fun j => j != i)).isEmpty
    · rw [show cleanupReg ((t', s') :: rest) i = cleanupReg rest i from by
        simp [cleanupReg, hemp]] at hp
      exact ih p hp
    · rw [show cleanupReg ((t', s') :: rest) i =
          (t', s'.filter (fun j => j != i)) :: cleanupReg rest i from by
        simp [cleanupReg, hemp]] at hp
      rcases List.mem_cons.mp hp with hph | hpt
      · subst hph
        intro hnil
        have hfil : s'.filter (fun j => j != i) = [] := hnil
        rw [hfil] at hemp
        exact hemp rfl
      · exact ih p hpt

theorem mem_alistReplaceFirst {β : Type} (k : String) (v : β) :
    ∀ (l : List (String × β)) (p : String × β),
      p ∈ alistReplaceFirst l k v → p ∈ l ∨ p.2 = v := by
  intro l
  induction l with
  | nil => intro p hp; simp [alistReplaceFirst] at hp
  | cons hd t ih =>
    intro p hp
    obtain ⟨k', v'⟩ := hd
    by_cases hk : k' = k
    · rw [show alistReplaceFirst ((k', v') :: t) k v = (k', v) :: t from by
        simp [alistReplaceFirst, hk]] at hp
      rcases List.mem_cons.mp hp with hph | hpt
      · right; rw [hph]
      · left; exact List.mem_cons_of_mem _ hpt
    · rw [show alistReplaceFirst ((k', v') :: t) k v =
          (k', v') :: alistReplaceFirst t k v from by
        simp [alistReplaceFirst, hk]] at hp
      rcases List.mem_cons.mp hp with hph | hpt
      · left; rw [hph]; exact List.mem_cons_self _ _
      · rcases ih p hpt with h | h
        · left; exact List.mem_cons_of_mem _ h
        · right; exact h

theorem mem_alistEraseFirst {β : Type} (k : String) :
    ∀ (l : List (String × β)) (p : String × β),
      p ∈ alistEraseFirst l k → p ∈ l := by
  intro l
  induction l with
  | nil => intro p hp; simp [alistEraseFirst] at hp
  | cons hd t ih =>
    intro p hp
    obtain ⟨k', v'⟩ := hd
    by_cases hk : k' = k
    · rw [show alistEraseFirst ((k', v') :: t) k = t from by
        simp [alistEraseFirst, hk]] at hp
      exact List.mem_cons_of_mem _ hp
    · rw [show alistEraseFirst ((k', v') :: t) k =
          (k', v') :: alistEraseFirst t k from by
        simp [alistEraseFirst, hk]] at hp
      rcases List.mem_cons.mp hp with hph | hpt
      · rw [hph]; exact List.mem_cons_self _ _
      · exact List.mem_cons_of_mem _ (ih p hpt)

theorem setAdd_ne_nil (l : List Nat) (i : Nat) : setAdd l i ≠ [] := by
  unfold setAdd
  by_cases hc : l.contains i
  · rw [if_pos hc]
    intro hnil
    rw [hnil] at hc
    simp at hc
  · rw [if_neg hc]
    simp

theorem applyOp_noEmpty (w : World) (op : WsOp) (h : noEmptyTopics w) :
    noEmptyTopics (applyOp w op) := by
  cases op with
  | sub i t =>
    simp only [applyOp, subscribe]
    cases hlk : alistLookup w.registry t with
    | none =>
      intro p hp
      rcases List.mem_append.mp hp with hpl | hpr
      · exact h p hpl
      · rw [List.mem_singleton.mp hpr]
        exact setAdd_ne_nil [] i
    | some subs =>
      intro p hp
      rcases mem_alistReplaceFirst t (setAdd subs i) w.registry p hp with hpl | hpe
      · exact h p hpl
      · rw [hpe]; exact setAdd_ne_nil subs i
  | unsub i t =>
    cases hlk : alistLookup w.registry t with
    | none =>
      rw [show applyOp w (.unsub i t) = w from by simp [applyOp, unsubscribe, hlk]]
      exact h
    | some subs =>
      by_cases hemp : (subs.filter (fun j => j != i)).isEmpty
      · rw [show applyOp w (.unsub i t) =
            { w with registry := alistEraseFirst w.registry t } from by
          simp [applyOp, unsubscribe, hlk, hemp]]
        intro p hp
        exact h p (mem_alistEraseFirst t w.registry p hp)
      · rw [show applyOp w (.unsub i t) =
            { w with
              registry := alistReplaceFirst w.registry t (subs.filter (fun j => j != i)) } from by
          simp [applyOp, unsubscribe, hlk, hemp]]
        intro p hp
        rcases mem_alistReplaceFirst t _ w.registry p hp with hpl | hpe
        · exact h p hpl
        · rw [hpe]
          intro hnil
          rw [hnil] at hemp
          exact hemp rfl
  | closeConn i =>
    intro p hp
    exact cleanupReg_noEmpty i w.registry p hp

theorem isSubscribed_closeHandle_self (w : World) (i : Nat) (t : String) :
    isSubscribed (closeHandle w i) i t = false := by
  unfold isSubscribed closeHandle
  cases hlk : alistLookup (cleanupReg w.registry i) t with
  | none => rfl
  | some subs =>
    simp only
    exact (cleanupReg_lookup i t w.registry subs hlk).1

/-!  Scenario lemmas: the responder after each negotiation outcome. -/

theorem handleFile_plain (sh : Option (Hdrs → String → Hdrs))
    (toUTC : Nat → String) (req : Request) (p : String) (file : FileEntry)
    (h304 : etagMatches file (hGet req.headers "if-none-match") = false)
    (hbr : (file.has_br &&
      strContains ((hGet req.headers "accept-encoding").getD "") "br") = false)
    (hgz : (file.has_gz &&
      strContains ((hGet req.headers "accept-encoding").getD "") "gzip") = false) :
    handleFile sh toUTC req p file =
      rangePhase file file.abs none ((hGet req.headers "range").getD "")
        (if file.has_br || file.has_gz
          then hSet (respHeadersBase sh toUTC p file) "Vary" "Accept-Encoding"
          else respHeadersBase sh toUTC p file) := by
  rw [handleFile_no304 sh toUTC req p file h304,
    negotiate_none_selected file _ _ hbr hgz]

theorem handleFile_br (sh : Option (Hdrs → String → Hdrs))
    (toUTC : Nat → String) (req : Request) (p : String) (file : FileEntry)
    (h304 : etagMatches file (hGet req.headers "if-none-match") = false)
    (hbr : (file.has_br &&
      strContains ((hGet req.headers "accept-encoding").getD "") "br") = true) :
    handleFile sh toUTC req p file =
      { status := 200
        headers :=
          hDelete (hSet (hSet (respHeadersBase sh toUTC p file)
              "Content-Encoding" "br") "Vary" "Accept-Encoding")
            "Content-Length"
        body := some (.whole (file.abs ++ ".br")) } := by
  rw [handleFile_no304 sh toUTC req p file h304, negotiate_br file _ _ hbr]
  exact rangePhase_encoded file _ _ _ _

theorem handleFile_gz (sh : Option (Hdrs → String → Hdrs))
    (toUTC : Nat → String) (req : Request) (p : String) (file : FileEntry)
    (h304 : etagMatches file (hGet req.headers "if-none-match") = false)
    (hbr : (file.has_br &&
      strContains ((hGet req.headers "accept-encoding").getD "") "br") = false)
    (hgz : (file.has_gz &&
      strContains ((hGet req.headers "accept-encoding").getD "") "gzip") = true) :
    handleFile sh toUTC req p file =
      { status := 200
        headers :=
          hDelete (hSet (hSet (respHeadersBase sh toUTC p file)
              "Content-Encoding" "gzip") "Vary" "Accept-Encoding")
            "Content-Length"
        body := some (.whole (file.abs ++ ".gz")) } := by
  rw [handleFile_no304 sh toUTC req p file h304, negotiate_gz file _ _ hbr hgz]
  exact rangePhase_encoded file _ _ _ _

/-!  Claim theorems. -/

/-- Claim C1: for every indexed file of size `S` and every request whose
Range header matches `bytes=start-end` (end optional, defaulting to
`S-1`) with `start <= end < S`, when no content encoding was selected in
negotiation, the responder returns 206 with
`Content-Range: bytes start-end/S`, `Content-Length = end-start+1`, and a
body that is exactly the inclusive byte slice `[start, end]` of the
file. -/
theorem static_serve_range_206
    (files : List (String × FileEntry)) (bp : String)
    (sh : Option (Hdrs → String → Hdrs)) (toUTC : Nat → String)
    (req : Request) (file : FileEntry) (rh : String)
    (d1 d2 : List Char) (s e : Nat) (fs : String → List Nat)
    (hlk : alistLookup files (stripBase bp req.pathname) = some file)
    (h304 : etagMatches file (hGet req.headers "if-none-match") = false)
    (hbr : (file.has_br &&
      strContains ((hGet req.headers "accept-encoding").getD "") "br") = false)
    (hgz : (file.has_gz &&
      strContains ((hGet req.headers "accept-encoding").getD "") "gzip") = false)
    (hrh : (hGet req.headers "range").getD "" = rh)
    (hne : rh ≠ "")
    (hm : findRangeMatch rh.toList = some (d1, d2))
    (hs : digitsToNat d1 = s)
    (he : (if d2.isEmpty then file.size - 1 else digitsToNat d2) = e)
    (hse : s ≤ e) (hesz : e < file.size)
    (hlen : (fs file.abs).length = file.size) :
    (handle files bp sh toUTC req).map Resp.status = some 206 ∧
    (handle files bp sh toUTC req).bind (fun r => hGet r.headers "Content-Range") =
      some ("bytes " ++ toString s ++ "-" ++ toString e ++ "/" ++
        toString file.size) ∧
    (handle files bp sh toUTC req).bind (fun r => hGet r.headers "Content-Length") =
      some (toString (e - s + 1)) ∧
    (handle files bp sh toUTC req).bind Resp.body =
      some (.sliced file.abs s (e + 1)) ∧
    (handle files bp sh toUTC req).bind (fun r => r.body.map (bodyBytes fs)) =
      some (byteSliceSpec (fs file.abs) s e) := by
  rw [handle_found files bp sh toUTC req file hlk,
    handleFile_plain sh toUTC req _ file h304 hbr hgz, hrh,
    rangePhase_match file _ rh _ d1 d2 hne hm,
    rangeResp_valid file _ _ d1 d2 s e hs he hse hesz]
  refine ⟨rfl, ?_, ?_, rfl, ?_⟩
  · show hGet (hSet (hSet _ "Content-Range" _) "Content-Length" _) "Content-Range" = _
    rw [hGet_hSet, if_neg (by decide), hGet_hSet, if_pos rfl]
  · show hGet (hSet (hSet _ "Content-Range" _) "Content-Length" _) "Content-Length" = _
    rw [hGet_hSet, if_pos rfl]
  · show some (((fs file.abs).drop s).take (e + 1 - s)) = _
    rw [drop_take_eq_byteSliceSpec (fs file.abs) s e hse (by omega)]

/-- Claim C1 witness: `data.txt` = `"Hello, World!"`, range `bytes=0-4`
yields 206, `Content-Range: bytes 0-4/13`, body `"Hello"`. -/
theorem static_serve_range_206_witness :
    (handle [("/data.txt", cFile)] "" none cUTC
        ⟨"/data.txt", [("range", "bytes=0-4")]⟩).map Resp.status = some 206 ∧
    (handle [("/data.txt", cFile)] "" none cUTC
        ⟨"/data.txt", [("range", "bytes=0-4")]⟩).bind
        (fun r => hGet r.headers "Content-Range") =
      some ("bytes " ++ toString 0 ++ "-" ++ toString 4 ++ "/" ++
        toString cFile.size) ∧
    (handle [("/data.txt", cFile)] "" none cUTC
        ⟨"/data.txt", [("range", "bytes=0-4")]⟩).bind
        (fun r => hGet r.headers "Content-Length") =
      some (toString (4 - 0 + 1)) ∧
    (handle [("/data.txt", cFile)] "" none cUTC
        ⟨"/data.txt", [("range", "bytes=0-4")]⟩).bind Resp.body =
      some (.sliced cFile.abs 0 (4 + 1)) ∧
    (handle [("/data.txt", cFile)] "" none cUTC
        ⟨"/data.txt", [("range", "bytes=0-4")]⟩).bind
        (fun r => r.body.map (bodyBytes cFs)) =
      some (byteSliceSpec (cFs cFile.abs) 0 4) :=
  static_serve_range_206 [("/data.txt", cFile)] "" none cUTC
    ⟨"/data.txt", [("range", "bytes=0-4")]⟩ cFile "bytes=0-4"
    ['0'] ['4'] 0 4 cFs
    (by decide) (by decide) (by decide) (by decide) (by decide) (by decide)
    (by decide) (by decide) (by decide) (by decide) (by decide) (by decide)

/-- Claim C5: for every indexed file of size `S` and every single-range
request `bytes=start-end` with `start >= S`, `end >= S` or `start > end`,
when no content encoding was selected, the responder returns 416 with
`Content-Range: bytes */S` and an empty body. -/
theorem static_serve_range_416
    (files : List (String × FileEntry)) (bp : String)
    (sh : Option (Hdrs → String → Hdrs)) (toUTC : Nat → String)
    (req : Request) (file : FileEntry) (rh : String)
    (d1 d2 : List Char) (s e : Nat)
    (hlk : alistLookup files (stripBase bp req.pathname) = some file)
    (h304 : etagMatches file (hGet req.headers "if-none-match") = false)
    (hbr : (file.has_br &&
      strContains ((hGet req.headers "accept-encoding").getD "") "br") = false)
    (hgz : (file.has_gz &&
      strContains ((hGet req.headers "accept-encoding").getD "") "gzip") = false)
    (hrh : (hGet req.headers "range").getD "" = rh)
    (hne : rh ≠ "")
    (hm : findRangeMatch rh.toList = some (d1, d2))
    (hs : digitsToNat d1 = s)
    (he : (if d2.isEmpty then file.size - 1 else digitsToNat d2) = e)
    (hbad : s ≥ file.size ∨ e ≥ file.size ∨ s > e) :
    (handle files bp sh toUTC req).map Resp.status = some 416 ∧
    (handle files bp sh toUTC req).bind (fun r => hGet r.headers "Content-Range") =
      some ("bytes */" ++ toString file.size) ∧
    (handle files bp sh toUTC req).bind Resp.body = none := by
  rw [handle_found files bp sh toUTC req file hlk,
    handleFile_plain sh toUTC req _ file h304 hbr hgz, hrh,
    rangePhase_match file _ rh _ d1 d2 hne hm,
    rangeResp_invalid file _ _ d1 d2 s e hs he hbad]
  refine ⟨rfl, ?_, rfl⟩
  show hGet (hSet [] "Content-Range" _) "Content-Range" = _
  rw [hGet_hSet, if_pos rfl]

/-- Claim C5 witness: `data.txt` (13 bytes), range `bytes=100-200` yields
416 with `Content-Range: bytes */13` and no body. -/
theorem static_serve_range_416_witness :
    (handle [("/data.txt", cFile)] "" none cUTC
        ⟨"/data.txt", [("range", "bytes=100-200")]⟩).map Resp.status = some 416 ∧
    (handle [("/data.txt", cFile)] "" none cUTC
        ⟨"/data.txt", [("range", "bytes=100-200")]⟩).bind
        (fun r => hGet r.headers "Content-Range") =
      some ("bytes */" ++ toString cFile.size) ∧
    (handle [("/data.txt", cFile)] "" none cUTC
        ⟨"/data.txt", [("range", "bytes=100-200")]⟩).bind Resp.body = none :=
  static_serve_range_416 [("/data.txt", cFile)] "" none cUTC
    ⟨"/data.txt", [("range", "bytes=100-200")]⟩ cFile "bytes=100-200"
    ['1', '0', '0'] ['2', '0', '0'] 100 200
    (by decide) (by decide) (by decide) (by decide) (by decide) (by decide)
    (by decide) (by decide) (by decide) (by decide)

/-- Claim C8 counterexample: a multi-range header `bytes=0-4,10-14` is not
treated as no range: the unanchored regex matches its first range and the
responder answers 206 for bytes 0-4, not 200 with the full body. -/
theorem multirange_first_range_206 :
    (handle [("/data.txt", cFile)] "" none cUTC
        ⟨"/data.txt", [("range", "bytes=0-4,10-14")]⟩).map Resp.status =
      some 206 ∧
    (handle [("/data.txt", cFile)] "" none cUTC
        ⟨"/data.txt", [("range", "bytes=0-4,10-14")]⟩).map Resp.status ≠
      some 200 ∧
    (handle [("/data.txt", cFile)] "" none cUTC
        ⟨"/data.txt", [("range", "bytes=0-4,10-14")]⟩).bind Resp.body ≠
      some (.whole cFile.abs) := by
  decide

/-- Claim C8 (amended): a Range header in which no substring matches the
single-range pattern `bytes=digits-digits?` is treated as no range
request: 200 with the full body.  (A multi-range header such as
`bytes=0-4,10-14` does contain a match — its first range — and is served
as a 206 of that range.) -/
theorem range_no_match_200
    (files : List (String × FileEntry)) (bp : String)
    (sh : Option (Hdrs → String → Hdrs)) (toUTC : Nat → String)
    (req : Request) (file : FileEntry) (rh : String)
    (hlk : alistLookup files (stripBase bp req.pathname) = some file)
    (h304 : etagMatches file (hGet req.headers "if-none-match") = false)
    (hbr : (file.has_br &&
      strContains ((hGet req.headers "accept-encoding").getD "") "br") = false)
    (hgz : (file.has_gz &&
      strContains ((hGet req.headers "accept-encoding").getD "") "gzip") = false)
    (hrh : (hGet req.headers "range").getD "" = rh)
    (hm : findRangeMatch rh.toList = none) :
    (handle files bp sh toUTC req).map Resp.status = some 200 ∧
    (handle files bp sh toUTC req).bind Resp.body = some (.whole file.abs) := by
  rw [handle_found files bp sh toUTC req file hlk,
    handleFile_plain sh toUTC req _ file h304 hbr hgz, hrh,
    rangePhase_nomatch file _ rh _ hm]
  exact ⟨rfl, rfl⟩

/-- Claim C8 (amended) witness: a Range header with no digits in range
position (`bytes=x-y`) is served 200 with the full body. -/
theorem range_no_match_200_witness :
    (handle [("/data.txt", cFile)] "" none cUTC
        ⟨"/data.txt", [("range", "bytes=x-y")]⟩).map Resp.status = some 200 ∧
    (handle [("/data.txt", cFile)] "" none cUTC
        ⟨"/data.txt", [("range", "bytes=x-y")]⟩).bind Resp.body =
      some (.whole cFile.abs) :=
  range_no_match_200 [("/data.txt", cFile)] "" none cUTC
    ⟨"/data.txt", [("range", "bytes=x-y")]⟩ cFile "bytes=x-y"
    (by decide) (by decide) (by decide) (by decide) (by decide) (by decide)

/-- Claim C3: a request whose `If-None-Match` equals the entry's stored
validator exactly receives 304 with the same base headers and no body,
and neither encoding negotiation nor range handling affects the response:
changing `Accept-Encoding` and `Range` leaves it untouched. -/
theorem static_if_none_match_304
    (files : List (String × FileEntry)) (bp : String)
    (sh : Option (Hdrs → String → Hdrs)) (toUTC : Nat → String)
    (req : Request) (file : FileEntry) (tag : String)
    (hlk : alistLookup files (stripBase bp req.pathname) = some file)
    (htag : file.etag = some tag)
    (hinm : hGet req.headers "if-none-match" = some tag) :
    handle files bp sh toUTC req =
      some { status := 304
             headers := respHeadersBase sh toUTC (stripBase bp req.pathname) file
             body := none } ∧
    ∀ ae rh : String,
      handle files bp sh toUTC
          ((req.withHeader "Accept-Encoding" ae).withHeader "Range" rh) =
        handle files bp sh toUTC req := by
  have hm : etagMatches file (hGet req.headers "if-none-match") = true := by
    simp [etagMatches, htag, hinm]
  constructor
  · rw [handle_found files bp sh toUTC req file hlk,
      handleFile_304 sh toUTC req _ file hm]
  · intro ae rh
    have hinm' :
        hGet ((req.withHeader "Accept-Encoding" ae).withHeader "Range" rh).headers
          "if-none-match" = some tag := by
      show hGet (hSet (hSet req.headers "Accept-Encoding" ae) "Range" rh)
        "if-none-match" = some tag
      rw [hGet_hSet, if_neg (by decide), hGet_hSet, if_neg (by decide), hinm]
    have hm' : etagMatches file
        (hGet ((req.withHeader "Accept-Encoding" ae).withHeader "Range" rh).headers
          "if-none-match") = true := by
      simp [etagMatches, htag, hinm']
    have hlk' : alistLookup files
        (stripBase bp ((req.withHeader "Accept-Encoding" ae).withHeader
          "Range" rh).pathname) = some file := hlk
    rw [handle_found files bp sh toUTC _ file hlk',
      handleFile_304 sh toUTC _ _ file hm',
      handle_found files bp sh toUTC req file hlk,
      handleFile_304 sh toUTC req _ file hm]
    rfl

/-- Claim C3 witness: the stored validator in `If-None-Match` yields 304
with the base headers and no body, however `Accept-Encoding` and `Range`
are set. -/
theorem static_if_none_match_304_witness :
    handle [("/data.txt", cFile)] "" none cUTC
        ⟨"/data.txt", [("if-none-match", "W/13-5")]⟩ =
      some { status := 304
             headers := respHeadersBase none cUTC (stripBase "" "/data.txt") cFile
             body := none } ∧
    handle [("/data.txt", cFile)] "" none cUTC
        ((Request.withHeader ⟨"/data.txt", [("if-none-match", "W/13-5")]⟩
          "Accept-Encoding" "gzip, br").withHeader "Range" "bytes=0-4") =
      handle [("/data.txt", cFile)] "" none cUTC
        ⟨"/data.txt", [("if-none-match", "W/13-5")]⟩ :=
  ⟨(static_if_none_match_304 [("/data.txt", cFile)] "" none cUTC
      ⟨"/data.txt", [("if-none-match", "W/13-5")]⟩ cFile "W/13-5"
      (by decide) (by decide) (by decide)).1,
    (static_if_none_match_304 [("/data.txt", cFile)] "" none cUTC
      ⟨"/data.txt", [("if-none-match", "W/13-5")]⟩ cFile "W/13-5"
      (by decide) (by decide) (by decide)).2 "gzip, br" "bytes=0-4"⟩

/-- Claim C4 counterexample: a file with a gzip sibling, requested with no
`Accept-Encoding` but an unsatisfiable `Range`, is answered 416 whose
headers carry no `Vary: Accept-Encoding` — the uncompressed original is
not served and the promised Vary header is absent. -/
theorem encoding_vary_absent_on_416 :
    (handle [("/data.txt", cFileGz)] "" none cUTC
        ⟨"/data.txt", [("range", "bytes=100-200")]⟩).map Resp.status =
      some 416 ∧
    (handle [("/data.txt", cFileGz)] "" none cUTC
        ⟨"/data.txt", [("range", "bytes=100-200")]⟩).bind
        (fun r => hGet r.headers "Vary") = none ∧
    (handle [("/data.txt", cFileGz)] "" none cUTC
        ⟨"/data.txt", [("range", "bytes=100-200")]⟩).bind Resp.body ≠
      some (.whole cFileGz.abs) := by
  decide

/-- Claim C4 (amended): for an indexed file with a `.br` or `.gz` sibling:
if `Accept-Encoding` includes `br` and a `.br` sibling exists the sibling
is served with `Content-Encoding: br`, `Vary: Accept-Encoding` and no
`Content-Length`; else if it includes `gzip` and a `.gz` sibling exists,
the gzip equivalent; brotli wins when both apply.  Otherwise the
uncompressed original is served with `Vary: Accept-Encoding` — whether
in full (no single-range match in the Range header) or as a 206 slice of
the original for a satisfiable single-range match — except that a Range
header matching the single-range pattern with unsatisfiable bounds
yields a 416 carrying only `Content-Range` and no `Vary`. -/
theorem encoding_negotiation_spec
    (files : List (String × FileEntry)) (bp : String)
    (sh : Option (Hdrs → String → Hdrs)) (toUTC : Nat → String)
    (req : Request) (file : FileEntry) (ae rh : String) (d1 d2 : List Char)
    (hlk : alistLookup files (stripBase bp req.pathname) = some file)
    (h304 : etagMatches file (hGet req.headers "if-none-match") = false)
    (hae : (hGet req.headers "accept-encoding").getD "" = ae)
    (hrh : (hGet req.headers "range").getD "" = rh) :
    ((file.has_br && strContains ae "br") = true →
      (handle files bp sh toUTC req).map Resp.status = some 200 ∧
      (handle files bp sh toUTC req).bind
        (fun r => hGet r.headers "Content-Encoding") = some "br" ∧
      (handle files bp sh toUTC req).bind (fun r => hGet r.headers "Vary") =
        some "Accept-Encoding" ∧
      (handle files bp sh toUTC req).bind
        (fun r => hGet r.headers "Content-Length") = none ∧
      (handle files bp sh toUTC req).bind Resp.body =
        some (.whole (file.abs ++ ".br"))) ∧
    ((file.has_br && strContains ae "br") = false →
      (file.has_gz && strContains ae "gzip") = true →
      (handle files bp sh toUTC req).map Resp.status = some 200 ∧
      (handle files bp sh toUTC req).bind
        (fun r => hGet r.headers "Content-Encoding") = some "gzip" ∧
      (handle files bp sh toUTC req).bind (fun r => hGet r.headers "Vary") =
        some "Accept-Encoding" ∧
      (handle files bp sh toUTC req).bind
        (fun r => hGet r.headers "Content-Length") = none ∧
      (handle files bp sh toUTC req).bind Resp.body =
        some (.whole (file.abs ++ ".gz"))) ∧
    ((file.has_br && strContains ae "br") = false →
      (file.has_gz && strContains ae "gzip") = false →
      (file.has_br || file.has_gz) = true →
      findRangeMatch rh.toList = none →
      (handle files bp sh toUTC req).map Resp.status = some 200 ∧
      (handle files bp sh toUTC req).bind (fun r => hGet r.headers "Vary") =
        some "Accept-Encoding" ∧
      (handle files bp sh toUTC req).bind Resp.body =
        some (.whole file.abs)) ∧
    ((file.has_br && strContains ae "br") = false →
      (file.has_gz && strContains ae "gzip") = false →
      (file.has_br || file.has_gz) = true →
      findRangeMatch rh.toList = some (d1, d2) →
      digitsToNat d1 ≤ (if d2.isEmpty then file.size - 1 else digitsToNat d2) →
      (if d2.isEmpty then file.size - 1 else digitsToNat d2) < file.size →
      (handle files bp sh toUTC req).map Resp.status = some 206 ∧
      (handle files bp sh toUTC req).bind (fun r => hGet r.headers "Vary") =
        some "Accept-Encoding" ∧
      (handle files bp sh toUTC req).bind Resp.body =
        some (.sliced file.abs (digitsToNat d1)
          ((if d2.isEmpty then file.size - 1 else digitsToNat d2) + 1))) ∧
    ((file.has_br && strContains ae "br") = false →
      (file.has_gz && strContains ae "gzip") = false →
      findRangeMatch rh.toList = some (d1, d2) →
      (digitsToNat d1 ≥ file.size ∨
        (if d2.isEmpty then file.size - 1 else digitsToNat d2) ≥ file.size ∨
        digitsToNat d1 > (if d2.isEmpty then file.size - 1 else digitsToNat d2)) →
      (handle files bp sh toUTC req).map Resp.status = some 416 ∧
      (handle files bp sh toUTC req).bind (fun r => hGet r.headers "Vary") =
        none) := by
  refine ⟨?_, ?_, ?_, ?_, ?_⟩
  · intro hA
    have hA' : (file.has_br &&
        strContains ((hGet req.headers "accept-encoding").getD "") "br") = true := by
      rw [hae]; exact hA
    rw [handle_found files bp sh toUTC req file hlk,
      handleFile_br sh toUTC req _ file h304 hA']
    refine ⟨rfl, ?_, ?_, ?_, rfl⟩
    · show hGet (hDelete (hSet (hSet _ "Content-Encoding" "br")
        "Vary" "Accept-Encoding") "Content-Length") "Content-Encoding" = _
      rw [hGet_hDelete, if_neg (by decide), hGet_hSet, if_neg (by decide),
        hGet_hSet, if_pos rfl]
    · show hGet (hDelete (hSet (hSet _ "Content-Encoding" "br")
        "Vary" "Accept-Encoding") "Content-Length") "Vary" = _
      rw [hGet_hDelete, if_neg (by decide), hGet_hSet, if_pos rfl]
    · show hGet (hDelete (hSet (hSet _ "Content-Encoding" "br")
        "Vary" "Accept-Encoding") "Content-Length") "Content-Length" = _
      rw [hGet_hDelete, if_pos rfl]
  · intro hbrF hB
    have hbrF' : (file.has_br &&
        strContains ((hGet req.headers "accept-encoding").getD "") "br") = false := by
      rw [hae]; exact hbrF
    have hB' : (file.has_gz &&
        strContains ((hGet req.headers "accept-encoding").getD "") "gzip") = true := by
      rw [hae]; exact hB
    rw [handle_found files bp sh toUTC req file hlk,
      handleFile_gz sh toUTC req _ file h304 hbrF' hB']
    refine ⟨rfl, ?_, ?_, ?_, rfl⟩
    · show hGet (hDelete (hSet (hSet _ "Content-Encoding" "gzip")
        "Vary" "Accept-Encoding") "Content-Length") "Content-Encoding" = _
      rw [hGet_hDelete, if_neg (by decide), hGet_hSet, if_neg (by decide),
        hGet_hSet, if_pos rfl]
    · show hGet (hDelete (hSet (hSet _ "Content-Encoding" "gzip")
        "Vary" "Accept-Encoding") "Content-Length") "Vary" = _
      rw [hGet_hDelete, if_neg (by decide), hGet_hSet, if_pos rfl]
    · show hGet (hDelete (hSet (hSet _ "Content-Encoding" "gzip")
        "Vary" "Accept-Encoding") "Content-Length") "Content-Length" = _
      rw [hGet_hDelete, if_pos rfl]
  · intro hbrF hgzF hor hnm
    have hbrF' : (file.has_br &&
        strContains ((hGet req.headers "accept-encoding").getD "") "br") = false := by
      rw [hae]; exact hbrF
    have hgzF' : (file.has_gz &&
        strContains ((hGet req.headers "accept-encoding").getD "") "gzip") = false := by
      rw [hae]; exact hgzF
    rw [handle_found files bp sh toUTC req file hlk,
      handleFile_plain sh toUTC req _ file h304 hbrF' hgzF', hrh,
      rangePhase_nomatch file _ rh _ hnm]
    refine ⟨rfl, ?_, rfl⟩
    show hGet (if file.has_br || file.has_gz
      then hSet (respHeadersBase sh toUTC (stripBase bp req.pathname) file)
        "Vary" "Accept-Encoding"
      else respHeadersBase sh toUTC (stripBase bp req.pathname) file) "Vary" = _
    rw [hor, if_pos rfl, hGet_hSet, if_pos rfl]
  · intro hbrF hgzF hor hmS hle hlt
    have hbrF' : (file.has_br &&
        strContains ((hGet req.headers "accept-encoding").getD "") "br") = false := by
      rw [hae]; exact hbrF
    have hgzF' : (file.has_gz &&
        strContains ((hGet req.headers "accept-encoding").getD "") "gzip") = false := by
      rw [hae]; exact hgzF
    have hne : rh ≠ "" := by
      intro h0
      rw [h0, show findRangeMatch ("" : String).toList = none from rfl] at hmS
      cases hmS
    rw [handle_found files bp sh toUTC req file hlk,
      handleFile_plain sh toUTC req _ file h304 hbrF' hgzF', hrh,
      rangePhase_match file _ rh _ d1 d2 hne hmS,
      rangeResp_valid file _ _ d1 d2 (digitsToNat d1)
        (if d2.isEmpty then file.size - 1 else digitsToNat d2) rfl rfl hle hlt]
    refine ⟨rfl, ?_, rfl⟩
    show hGet (hSet (hSet _ "Content-Range" _) "Content-Length" _) "Vary" = _
    rw [hGet_hSet, if_neg (by decide), hGet_hSet, if_neg (by decide)]
    show hGet (if file.has_br || file.has_gz
      then hSet (respHeadersBase sh toUTC (stripBase bp req.pathname) file)
        "Vary" "Accept-Encoding"
      else respHeadersBase sh toUTC (stripBase bp req.pathname) file) "Vary" = _
    rw [hor, if_pos rfl, hGet_hSet, if_pos rfl]
  · intro hbrF hgzF hmD hbadD
    have hbrF' : (file.has_br &&
        strContains ((hGet req.headers "accept-encoding").getD "") "br") = false := by
      rw [hae]; exact hbrF
    have hgzF' : (file.has_gz &&
        strContains ((hGet req.headers "accept-encoding").getD "") "gzip") = false := by
      rw [hae]; exact hgzF
    have hne : rh ≠ "" := by
      intro h0
      rw [h0, show findRangeMatch ("" : String).toList = none from rfl] at hmD
      cases hmD
    rw [handle_found files bp sh toUTC req file hlk,
      handleFile_plain sh toUTC req _ file h304 hbrF' hgzF', hrh,
      rangePhase_match file _ rh _ d1 d2 hne hmD,
      rangeResp_invalid file _ _ d1 d2 (digitsToNat d1)
        (if d2.isEmpty then file.size - 1 else digitsToNat d2) rfl rfl hbadD]
    refine ⟨rfl, ?_⟩
    show hGet (hSet [] "Content-Range" _) "Vary" = _
    rw [hGet_hSet, if_neg (by decide)]
    rfl

/-- Claim C4 (amended) witness: a file with both siblings answers `br` to
a client accepting both, with `Vary` set and `Content-Length` dropped;
and a gzip-sibling file requested with no acceptable encoding but a
satisfiable range `bytes=0-4` is served a 206 slice of the original that
still carries `Vary: Accept-Encoding`. -/
theorem encoding_negotiation_spec_witness :
    ((handle [("/data.txt", cFileBoth)] "" none cUTC
        ⟨"/data.txt", [("accept-encoding", "gzip, br")]⟩).map Resp.status =
      some 200 ∧
    (handle [("/data.txt", cFileBoth)] "" none cUTC
        ⟨"/data.txt", [("accept-encoding", "gzip, br")]⟩).bind
        (fun r => hGet r.headers "Content-Encoding") = some "br" ∧
    (handle [("/data.txt", cFileBoth)] "" none cUTC
        ⟨"/data.txt", [("accept-encoding", "gzip, br")]⟩).bind
        (fun r => hGet r.headers "Vary") = some "Accept-Encoding" ∧
    (handle [("/data.txt", cFileBoth)] "" none cUTC
        ⟨"/data.txt", [("accept-encoding", "gzip, br")]⟩).bind
        (fun r => hGet r.headers "Content-Length") = none ∧
    (handle [("/data.txt", cFileBoth)] "" none cUTC
        ⟨"/data.txt", [("accept-encoding", "gzip, br")]⟩).bind Resp.body =
      some (.whole (cFileBoth.abs ++ ".br"))) ∧
    ((handle [("/data.txt", cFileGz)] "" none cUTC
        ⟨"/data.txt", [("range", "bytes=0-4")]⟩).map Resp.status = some 206 ∧
    (handle [("/data.txt", cFileGz)] "" none cUTC
        ⟨"/data.txt", [("range", "bytes=0-4")]⟩).bind
        (fun r => hGet r.headers "Vary") = some "Accept-Encoding" ∧
    (handle [("/data.txt", cFileGz)] "" none cUTC
        ⟨"/data.txt", [("range", "bytes=0-4")]⟩).bind Resp.body =
      some (.sliced cFileGz.abs 0 5)) :=
  ⟨(encoding_negotiation_spec [("/data.txt", cFileBoth)] "" none cUTC
      ⟨"/data.txt", [("accept-encoding", "gzip, br")]⟩ cFileBoth
      "gzip, br" "" ['0'] ['0']
      (by decide) (by decide) (by decide) (by decide)).1 (by decide),
    (encoding_negotiation_spec [("/data.txt", cFileGz)] "" none cUTC
      ⟨"/data.txt", [("range", "bytes=0-4")]⟩ cFileGz
      "" "bytes=0-4" ['0'] ['4']
      (by decide) (by decide) (by decide) (by decide)).2.2.2.1
      (by decide) (by decide) (by decide) (by decide) (by decide) (by decide)⟩

/-- Claim C2 counterexample: publish does not return the count of
recipients: with one other open subscriber and the 2-character payload
`"hi"`, it returns 2 (the summed `send` byte counts), not 1. -/
theorem publish_return_bytes_not_count :
    (publish cW 0 "room" "hi").2 = 2 ∧
    (publishRecipients cW 0 "room" "hi").length = 1 ∧
    (publish cW 0 "room" "hi").2 ≠
      (publishRecipients cW 0 "room" "hi").length := by
  decide

/-- Claim C2 (amended): `publish(t, data)` on handle `h` sends `data` to
exactly the other subscribers of `t` currently in the open state — never
to `h`, never to a non-open subscriber — and returns the sum of the
per-recipient `send` results, i.e. recipients times payload length (not
the recipient count); for an unknown topic it returns 0 without error. -/
theorem publish_delivery_spec (w : World) (selfId : Nat)
    (topic data : String) :
    (alistLookup w.registry topic = none →
      publish w selfId topic data = (w, 0)) ∧
    (∀ subs, alistLookup w.registry topic = some subs →
      publishRecipients w selfId topic data =
        subs.filter (fun j => decide (j ≠ selfId) && decide (readyState w j = 1)) ∧
      (publish w selfId topic data).2 =
        (publishRecipients w selfId topic data).length * data.length) := by
  constructor
  · exact publish_unknown_topic w selfId topic data
  · intro subs h
    have hr := publishRecipients_known w selfId topic data subs h
    obtain ⟨_, _, _, hn⟩ := publish_known_topic w selfId topic data subs h
    exact ⟨hr, by rw [hn, hr]⟩

/-- Claim C2 (amended) witness: in a two-socket world, a publish from
handle 0 reaches exactly handle 1 and returns `1 * 2 = 2` bytes; an
unknown topic returns 0 leaving the world unchanged. -/
theorem publish_delivery_spec_witness :
    publishRecipients cW 0 "room" "hi" = [1] ∧
    (publish cW 0 "room" "hi").2 =
      (publishRecipients cW 0 "room" "hi").length * ("hi" : String).length ∧
    publish cW 0 "nope" "hi" = (cW, 0) := by
  have ha := (publish_delivery_spec cW 0 "room" "hi").2 [0, 1] (by decide)
  have hb := (publish_delivery_spec cW 0 "nope" "hi").1 (by decide)
  refine ⟨?_, ha.2, hb⟩
  rw [ha.1]
  decide

/-- Claim C6 counterexample: an upgrade callback that returns a
non-`Response` value without calling the facade's upgrade method does not
get the socket destroyed — the bridge just returns (though `open` indeed
never fires). -/
theorem upgrade_reject_socket_not_destroyed :
    handleUpgrade none cModOther = .rejectedHung ∧
    socketDestroyed (handleUpgrade none cModOther) = false ∧
    openFires (handleUpgrade none cModOther) = false := by
  decide

/-- Claim C6 (amended): when the upgrade callback returns without having
called the facade's upgrade method (and without throwing), the handshake
is never completed and the user's `open` callback never fires; the
underlying socket is destroyed exactly when the returned value is a
`Response` instance. -/
theorem upgrade_reject_spec (sp : Option String) (m : WsModule)
    (cb : UpgradeCb)
    (hsp : (sp == some "vite-hmr") = false)
    (hup : m.upgrade = some cb)
    (hcall : cb.callsUpgrade = false)
    (hthrow : cb.throws = false) :
    openFires (handleUpgrade sp m) = false ∧
    socketDestroyed (handleUpgrade sp m) = (cb.ret == .response) := by
  unfold handleUpgrade
  rw [hsp, hup]
  cases hret : cb.ret <;>
    simp [hcall, hthrow, hret, socketDestroyed, openFires]

/-- Claim C6 (amended) witness: the concrete rejecting module — no
facade call, plain return value — leaves `open` unfired and the socket
undestroyed, matching its non-`Response` return. -/
theorem upgrade_reject_spec_witness :
    openFires (handleUpgrade none cModOther) = false ∧
    socketDestroyed (handleUpgrade none cModOther) =
      (cCbOther.ret == UpgradeRet.response) :=
  upgrade_reject_spec none cModOther cCbOther
    (by decide) (by decide) (by decide) (by decide)

/-- Claim C7: after a handle transitions to closed (close event plus its
registry cleanup), it is subscribed to no topic, and a publish from any
other handle never delivers to it. -/
theorem closed_handle_unreachable (w : World) (i : Nat) :
    (∀ t, isSubscribed (closeHandle w i) i t = false) ∧
    (∀ t j data, j ≠ i →
      i ∉ publishRecipients (closeHandle w i) j t data) := by
  refine ⟨fun t => isSubscribed_closeHandle_self w i t, ?_⟩
  intro t j data _ hmem
  cases hlk : alistLookup (closeHandle w i).registry t with
  | none =>
    rw [publishRecipients_unknown _ _ _ _ hlk] at hmem
    exact absurd hmem (List.not_mem_nil i)
  | some subs =>
    rw [publishRecipients_known _ _ _ _ subs hlk] at hmem
    have hsub : i ∈ subs := List.mem_of_mem_filter hmem
    have hlk' : alistLookup (cleanupReg w.registry i) t = some subs := hlk
    have hcon := (cleanupReg_lookup i t w.registry subs hlk').1
    rw [show subs.contains i = true from by simpa using hsub] at hcon
    cases hcon

/-- Claim C7 witness: in a three-socket world, closing handle 2 leaves it
unsubscribed from `room` and out of the recipients of a publish from
handle 0. -/
theorem closed_handle_unreachable_witness :
    isSubscribed (closeHandle cW3 2) 2 "room" = false ∧
    2 ∉ publishRecipients (closeHandle cW3 2) 0 "room" "hi" :=
  ⟨(closed_handle_unreachable cW3 2).1 "room",
    (closed_handle_unreachable cW3 2).2 "room" 0 "hi" (by decide)⟩

/-- Claim C9: after any sequence of subscribe, unsubscribe and
close-triggered cleanup events starting from a fresh process, the topic
registry holds no entry with an empty subscriber set: entries appear on
first subscribe and disappear with their last subscriber. -/
theorem registry_no_empty_topics (hs : List (Nat × Nat)) (ops : List WsOp) :
    noEmptyTopics (runOps (initWorld hs) ops) := by
  suffices h : ∀ (l : List WsOp) (w : World),
      noEmptyTopics w → noEmptyTopics (runOps w l) by
    refine h ops (initWorld hs) ?_
    intro p hp
    simp [initWorld] at hp
  intro l
  induction l with
  | nil => intro w hw; simpa [runOps] using hw
  | cons op t ih =>
    intro w hw
    rw [show runOps w (op :: t) = runOps (applyOp w op) t from rfl]
    exact ih _ (applyOp_noEmpty w op hw)

/-- Claim C9 witness: a concrete run — two subscribes, an unsubscribe and
a close — ends with no empty registry entry. -/
theorem registry_no_empty_topics_witness :
    noEmptyTopics (runOps (initWorld [(0, 1), (1, 1)])
      [WsOp.sub 0 "room", WsOp.sub 1 "room", WsOp.unsub 0 "room",
        WsOp.closeConn 1]) :=
  registry_no_empty_topics [(0, 1), (1, 1)]
    [WsOp.sub 0 "room", WsOp.sub 1 "room", WsOp.unsub 0 "room",
      WsOp.closeConn 1]

/-- Claim C10: publish never mutates subscription state: the registry,
the socket table and every `isSubscribed` answer are unchanged by a
publish, whatever was delivered or skipped. -/
theorem publish_preserves_subscriptions (w : World) (selfId : Nat)
    (topic data : String) :
    (publish w selfId topic data).1.registry = w.registry ∧
    (publish w selfId topic data).1.handles = w.handles ∧
    ∀ j t, isSubscribed (publish w selfId topic data).1 j t =
      isSubscribed w j t := by
  cases hlk : alistLookup w.registry topic with
  | none =>
    rw [publish_unknown_topic w selfId topic data hlk]
    exact ⟨rfl, rfl, fun _ _ => rfl⟩
  | some subs =>
    obtain ⟨hr, hh, _, _⟩ := publish_known_topic w selfId topic data subs hlk
    refine ⟨hr, hh, fun j t => ?_⟩
    unfold isSubscribed
    rw [hr]

end AdapterBun
